import Mathlib

/-!
Verification of the claude-code-tts message-bus daemon against its design
specification.  The definitions below are a shallow embedding of
`scripts/tts-daemon.py` (scheduler loop, queue management, playback state,
audio driver) and `src/ai_tts/core/speaker.py` (producer API).  Wall-clock
instants and message timestamps are modelled as integers (the verified
properties involve only their ordering and constant shifts); JSON objects
become records whose `Option` fields model absent keys; the filesystem
becomes explicit values threaded through the functions.
-/

namespace TtsSpec

/-- A queue message as parsed from a queue JSON file.  Each field mirrors a
key that some part of the repository reads with `msg.get(...)`; `none`
models an absent key. -/
structure QMsg where
  timestamp : Option Int
  session_id : Option String
  project : Option String
  text : Option String
  persona : Option String
  mtype : Option String
  pre_action : Option String
  post_action : Option String
deriving DecidableEq

/-- The timestamp key as the daemon reads it: `msg.get("timestamp", 0)`. -/
def QMsg.tsKey (m : QMsg) : Int := m.timestamp.getD 0

/-- The text as the daemon reads it: `msg.get("text", "")`. -/
def QMsg.textVal (m : QMsg) : String := m.text.getD ""

/-- The persona as the daemon reads it: `msg.get("persona", "claude-prime")`. -/
def QMsg.personaVal (m : QMsg) : String := m.persona.getD "claude-prime"

/-- The session id as the daemon reads it: `msg.get("session_id", "unknown")`. -/
def QMsg.sessionVal (m : QMsg) : String := m.session_id.getD "unknown"

/-- The project as the daemon reads it: `msg.get("project", "unknown")`. -/
def QMsg.projectVal (m : QMsg) : String := m.project.getD "unknown"

/-- Python's `not text.strip()`: true exactly when every character of the
text is whitespace, that is, stripping leaves the empty string. -/
def stripEmpty (s : String) : Bool := s.data.all Char.isWhitespace

/-- One file of the queue directory: a filename plus its parsed content,
`none` when the JSON does not parse. -/
structure QFile where
  name : String
  content : Option QMsg
deriving DecidableEq

/-- A parsed queue entry: in the source the parsed dict carries its path in
the `_file` key. -/
structure Entry where
  msg : QMsg
  file : String
deriving DecidableEq

/-- Parsing pass of `get_queue_messages`: the files whose JSON parses, in
directory-enumeration order (`Path.glob` yields an unspecified order, which
the source never sorts by name). -/
def parseEntries (dir : List QFile) : List Entry :=
  dir.filterMap fun f => f.content.map fun m => { msg := m, file := f.name }

/-- Directory contents after a `get_queue_messages` scan: files with invalid
JSON are unlinked during the scan. -/
def dirAfterScan (dir : List QFile) : List QFile :=
  dir.filter fun f => f.content.isSome

/-- Insert one entry into an already processed list, after every element
whose timestamp key is less than or equal to its own.  Together with
`sortByTs` this captures the semantics of Python's stable `list.sort` with
key `m.get("timestamp", 0)`. -/
def insEntry (x : Entry) : List Entry → List Entry
  | [] => [x]
  | y :: ys =>
    if y.msg.tsKey ≤ x.msg.tsKey then y :: insEntry x ys else x :: y :: ys

/-- Stable ascending sort by timestamp key, as `messages.sort(key=...)`
performs it: elements are taken in enumeration order and each is placed
after all earlier elements with a key less than or equal to its own. -/
def sortByTs (l : List Entry) : List Entry :=
  l.foldl (fun acc x => insEntry x acc) []

/-- Embedding of `get_queue_messages`: parse every `*.json` file (removing
corrupt ones) and sort the parsed messages ascending by the in-file
timestamp, stably with respect to directory-enumeration order. -/
def get_queue_messages (dir : List QFile) : List Entry :=
  sortByTs (parseEntries dir)

/-- Relation ordering entries by their timestamp key. -/
def tsLe (a b : Entry) : Prop := a.msg.tsKey ≤ b.msg.tsKey

/-- The predicate selecting entries with a given timestamp key. -/
def hasTs (t : Int) (e : Entry) : Bool := decide (e.msg.tsKey = t)

/-- Embedding of `cleanup_old_messages`: unlink every parseable file whose
timestamp key is below `now - max_age_seconds`, and every corrupt file. -/
def cleanup_old_messages (dir : List QFile) (now maxAge : Int) : List QFile :=
  dir.filter fun f =>
    match f.content with
    | none => false
    | some m => ! decide (m.tsKey < now - maxAge)

/-- Embedding of the eviction loop of `enforce_max_depth`:
`while len(messages) > max_depth: messages.pop(0); unlink`.  Returns the
surviving messages and the evicted ones. -/
def enforceLoop (maxDepth : Nat) : List Entry → List Entry × List Entry
  | [] => ([], [])
  | x :: rest =>
    if maxDepth < (x :: rest).length then
      let p := enforceLoop maxDepth rest
      (p.1, x :: p.2)
    else (x :: rest, [])

/-- The messages surviving `enforce_max_depth` on a given directory. -/
def enforceSurvivors (dir : List QFile) (maxDepth : Nat) : List Entry :=
  (enforceLoop maxDepth (get_queue_messages dir)).1

/-- The messages `enforce_max_depth` evicts from a given directory. -/
def enforceEvicted (dir : List QFile) (maxDepth : Nat) : List Entry :=
  (enforceLoop maxDepth (get_queue_messages dir)).2

/-- Directory contents after `enforce_max_depth`: the scan inside
`get_queue_messages` removed corrupt files, and the loop unlinked the
evicted files. -/
def enforceDir (dir : List QFile) (maxDepth : Nat) : List QFile :=
  (dirAfterScan dir).filter fun f =>
    ! (enforceEvicted dir maxDepth).any fun e => e.file == f.name

-- --- Playback state (for pause/resume) ---

/-- The dict written by the scheduler into `current_message`
(`current_msg_info` in `daemon_loop`). -/
structure CurrentMsg where
  session_id : String
  project : String
  text : String
  persona : String
deriving DecidableEq

/-- The playback-state record `playback.json` holds; `updated_at` is `none`
before the file has ever been written. -/
structure PlaybackState where
  paused : Bool
  audio_pid : Option Int
  current_message : Option CurrentMsg
  updated_at : Option Int
deriving DecidableEq

/-- The fallback of `read_playback_state`:
`{"paused": False, "audio_pid": None, "current_message": None}`. -/
def defaultPlaybackState : PlaybackState :=
  { paused := false, audio_pid := none, current_message := none,
    updated_at := none }

/-- The possible conditions of the state file when `read_playback_state`
opens it: missing, unreadable (`IOError` / `OSError`), undecodable JSON, or
a parsed state. -/
inductive StateFile
  | missing
  | unreadable
  | corrupt
  | ok (s : PlaybackState)
deriving DecidableEq

/-- Embedding of `read_playback_state`: the parsed state when the file
exists and decodes, the default state otherwise. -/
def read_playback_state : StateFile → PlaybackState
  | .ok s => s
  | _ => defaultPlaybackState

/-- The third parameter of `write_playback_state` uses the string sentinel
`"UNSET"` to distinguish "leave `current_message` unchanged" from "set it
(possibly to null)". -/
inductive CMArg
  | unset
  | set (m : Option CurrentMsg)
deriving DecidableEq

/-- Embedding of `write_playback_state`: read the current state, then
update `audio_pid` only when the argument `is not None`, `paused` only when
the argument `is not None`, `current_message` only when the argument is not
the `"UNSET"` sentinel, stamp `updated_at`, and atomically replace the
file.  Note that passing `None` for `audio_pid` therefore leaves the field
unchanged. -/
def write_playback_state (file : StateFile) (audio_pid : Option Int)
    (paused : Option Bool) (cm : CMArg) (now : Int) : PlaybackState :=
  let s0 := read_playback_state file
  let s1 := match audio_pid with
    | some p => { s0 with audio_pid := some p }
    | none => s0
  let s2 := match paused with
    | some b => { s1 with paused := b }
    | none => s1
  let s3 := match cm with
    | .set m => { s2 with current_message := m }
    | .unset => s2
  { s3 with updated_at := some now }

/-- Embedding of `clear_current_message`. -/
def clear_current_message (file : StateFile) (now : Int) : PlaybackState :=
  write_playback_state file none none (.set none) now

-- --- Audio playback driver ---

/-- Which audio player `get_audio_player` detected. -/
inductive PlayerKind
  | afplay
  | paplay
  | aplay
  | noPlayer
deriving DecidableEq

/-- Result of one `play_audio` call: the `(success, was_killed)` pair the
source returns, together with the state file it leaves behind. -/
structure PlayResult where
  success : Bool
  was_killed : Bool
  fileAfter : StateFile
deriving DecidableEq

/-- The poll loop of `play_audio`.  Each element of `reads` is the `paused`
flag observed on one 50 ms poll while the child is still running (the pause
CLI is the sole writer of that flag); when the list is exhausted the child
has exited with code `rc`.  On a pause-kill and on normal exit the source
calls `write_playback_state(audio_pid=None)`. -/
def playPoll (now : Int) (rc : Int) : StateFile → List Bool → PlayResult
  | f, [] =>
    let s := write_playback_state f none none .unset now
    { success := decide (rc = 0), was_killed := false, fileAfter := .ok s }
  | f, flag :: rest =>
    let cur := read_playback_state f
    let observed : StateFile := .ok { cur with paused := flag }
    if flag then
      let s := write_playback_state observed none none .unset now
      { success := false, was_killed := true, fileAfter := .ok s }
    else
      playPoll now rc observed rest

/-- Embedding of `play_audio`.  With no player available it returns
`(False, False)` at once; on an internal exception it performs the
handler's `write_playback_state(audio_pid=None)`; otherwise it records the
child PID in the state and enters the poll loop. -/
def play_audio (player : PlayerKind) (file : StateFile) (pid : Int)
    (now : Int) (reads : List Bool) (rc : Int) (spawnFails : Bool) :
    PlayResult :=
  match player with
  | .noPlayer => { success := false, was_killed := false, fileAfter := file }
  | _ =>
    if spawnFails then
      let s := write_playback_state file none none .unset now
      { success := false, was_killed := false, fileAfter := .ok s }
    else
      let s1 := write_playback_state file (some pid) none .unset now
      playPoll now rc (.ok s1) reads

-- --- Synthesis ---

/-- The default voice model name. -/
def DEFAULT_VOICE : String := "en_US-hfc_male-medium"

/-- One persona's configuration; `none` models an absent key, read with
`persona_config.get(...)`. -/
structure PersonaCfg where
  voice : Option String
  speed : Option Int
  speed_method : Option String
deriving DecidableEq

/-- Embedding of `get_persona_config`: the entry of `config["personas"]`
when the name is registered, the documented defaults otherwise. -/
def get_persona_config (personas : List (String × PersonaCfg))
    (name : String) : PersonaCfg :=
  match personas.lookup name with
  | some c => c
  | none =>
    { voice := some DEFAULT_VOICE, speed := some 2,
      speed_method := some "playback" }

/-- External facts `generate_speech` consults: whether the `piper` binary
is on the PATH, which voice model files exist in the voices directory, and
whether the synthesis subprocess run succeeds and leaves an output file. -/
structure SpeechEnv where
  piper : Bool
  voices : List String
  synthOk : Bool
deriving DecidableEq

/-- How a `generate_speech` call ended. -/
inductive GenOutcome
  | noPiper
  | noVoice
  | synthesized (voice : String) (ok : Bool)
deriving DecidableEq

/-- The boolean `generate_speech` returns. -/
def GenOutcome.ok : GenOutcome → Bool
  | .synthesized _ o => o
  | _ => false

/-- Embedding of `generate_speech`: fail when piper is absent; use the
persona's voice when its model file exists, otherwise fall back to the
default voice; fail when the default model file is missing too; otherwise
run piper. -/
def generate_speech (env : SpeechEnv) (personas : List (String × PersonaCfg))
    (persona : String) : GenOutcome :=
  if !env.piper then .noPiper
  else
    let cfg := get_persona_config personas persona
    let voiceName := cfg.voice.getD DEFAULT_VOICE
    if env.voices.contains voiceName then .synthesized voiceName env.synthOk
    else if env.voices.contains DEFAULT_VOICE then
      .synthesized DEFAULT_VOICE env.synthOk
    else .noVoice

-- --- Scheduler iteration ---

/-- The queue policy knobs of `get_queue_config` that the loop body uses. -/
structure QueueCfg where
  max_depth : Nat
  max_age_seconds : Int
  speaker_transition : String
deriving DecidableEq

/-- Observable actions of one scheduler iteration, in program order. -/
inductive Event
  | heartbeat
  | slept
  | replayBegin (m : CurrentMsg)
  | synthesizedText (text : String) (persona : String)
  | setCurrentMessage (m : Option CurrentMsg)
  | startedPlayback (text : String)
  | finishedPlayback (killed : Bool)
  | playedChime
  | playedAnnouncement (text : String)
  | deletedQueueFile (name : String)
deriving DecidableEq

/-- How an iteration of the scheduling loop ends.  The constructors
`exitRestart` and `exitStop` exist to state the specification's
control-message protocol; the loop body of the source continues in every
case. -/
inductive Outcome
  | nextIteration
  | exitRestart
  | exitStop
deriving DecidableEq

/-- Parameters of one `play_audio` call supplied by the environment: the
detected player, the child PID, the paused flags observed on each poll, the
child's exit code, and whether spawning raised. -/
structure PlayCfg where
  player : PlayerKind
  pid : Int
  reads : List Bool
  rc : Int
  spawnFails : Bool
deriving DecidableEq

/-- The environment of one scheduler iteration. -/
structure IterEnv where
  now : Int
  speech : SpeechEnv
  personas : List (String × PersonaCfg)
  mainPlay : PlayCfg
  annPlay : PlayCfg
deriving DecidableEq

/-- The state one iteration starts from: the playback-state file, the queue
directory, and the `last_speaker` local of `daemon_loop`. -/
structure IterState where
  stateFile : StateFile
  dir : List QFile
  lastSpeaker : Option String
deriving DecidableEq

/-- The result of one iteration. -/
structure IterResult where
  st : IterState
  events : List Event
  outcome : Outcome
deriving DecidableEq

/-- Run the playback driver with supplied call parameters. -/
def runPlay (p : PlayCfg) (file : StateFile) (now : Int) : PlayResult :=
  play_audio p.player file p.pid now p.reads p.rc p.spawnFails

/-- Unlink one queue file. -/
def deleteFile (dir : List QFile) (name : String) : List QFile :=
  dir.filter fun f => ! (f.name == name)

/-- The replay branch of the loop body: an interrupted message was found in
`current_message` (which `get_interrupted_message` already cleared,
yielding `fileCleared`); re-synthesize it, restore it as
`current_message`, replay it, and clear the field again unless the replay
was itself pause-killed. -/
def replayStep (env : IterEnv) (dir : List QFile) (last : Option String)
    (fileCleared : StateFile) (interrupted : CurrentMsg) : IterResult :=
  let text := interrupted.text
  let persona := interrupted.persona
  if (generate_speech env.speech env.personas persona).ok then
    let fileSaved := StateFile.ok
      (write_playback_state fileCleared none none (.set (some interrupted))
        env.now)
    let pr := runPlay env.mainPlay fileSaved env.now
    if pr.was_killed then
      { st := ⟨pr.fileAfter, dir, last⟩,
        events := [.replayBegin interrupted, .synthesizedText text persona,
                   .setCurrentMessage (some interrupted),
                   .startedPlayback text, .finishedPlayback true],
        outcome := .nextIteration }
    else
      let fileDone := StateFile.ok (clear_current_message pr.fileAfter env.now)
      { st := ⟨fileDone, dir, last⟩,
        events := [.replayBegin interrupted, .synthesizedText text persona,
                   .setCurrentMessage (some interrupted),
                   .startedPlayback text, .finishedPlayback false,
                   .setCurrentMessage none],
        outcome := .nextIteration }
  else
    { st := ⟨fileCleared, dir, last⟩,
      events := [.replayBegin interrupted],
      outcome := .nextIteration }

/-- The speaker-transition block of the loop body: when the speaker key
changes, play a chime, or synthesize and play a short announcement,
according to `speaker_transition`.  The message-processing tail
(`speechStep`) runs it between synthesis and playback of the main message:
skip blank text, synthesize (dropping the message on failure), insert the
transition cue, save `current_message`, play, and delete the queue file —
after playback — on both the killed and the completed path. -/
def transitionStep (cfg : QueueCfg) (env : IterEnv) (file : StateFile)
    (last : Option String) (speakerKey project persona : String) :
    List Event × StateFile :=
  match last with
  | some ls =>
    if ls ≠ speakerKey then
      if cfg.speaker_transition = "chime" then ([.playedChime], file)
      else if cfg.speaker_transition = "announce" then
        if (generate_speech env.speech env.personas persona).ok then
          let pr := runPlay env.annPlay file env.now
          ([.playedAnnouncement (project ++ " says:")], pr.fileAfter)
        else ([], file)
      else ([], file)
    else ([], file)
  | none => ([], file)

/-- The message-processing tail of the loop body, on the oldest queued
message (second part, see the doc comment above `transitionStep`). -/
def speechStep (cfg : QueueCfg) (env : IterEnv) (file : StateFile)
    (dir : List QFile) (last : Option String) (e : Entry) : IterResult :=
  let m := e.msg
  let session := m.sessionVal
  let project := m.projectVal
  let text := m.textVal
  let persona := m.personaVal
  if stripEmpty text then
    { st := ⟨file, deleteFile dir e.file, last⟩,
      events := [.deletedQueueFile e.file], outcome := .nextIteration }
  else if ! (generate_speech env.speech env.personas persona).ok then
    { st := ⟨file, deleteFile dir e.file, last⟩,
      events := [.deletedQueueFile e.file], outcome := .nextIteration }
  else
    let speakerKey := session ++ ":" ++ project
    let tr := transitionStep cfg env file last speakerKey project persona
    let info : CurrentMsg :=
      { session_id := session, project := project, text := text,
        persona := persona }
    let fileSaved := StateFile.ok
      (write_playback_state tr.2 none none (.set (some info)) env.now)
    let pr := runPlay env.mainPlay fileSaved env.now
    if pr.was_killed then
      { st := ⟨pr.fileAfter, deleteFile dir e.file, some speakerKey⟩,
        events := .synthesizedText text persona :: tr.1 ++
                  [.setCurrentMessage (some info), .startedPlayback text,
                   .finishedPlayback true, .deletedQueueFile e.file],
        outcome := .nextIteration }
    else
      let fileDone := StateFile.ok (clear_current_message pr.fileAfter env.now)
      { st := ⟨fileDone, deleteFile dir e.file, some speakerKey⟩,
        events := .synthesizedText text persona :: tr.1 ++
                  [.setCurrentMessage (some info), .startedPlayback text,
                   .finishedPlayback false, .setCurrentMessage none,
                   .deletedQueueFile e.file],
        outcome := .nextIteration }

/-- One iteration of the `while not _shutdown_requested` body of
`daemon_loop`: refresh the heartbeat, evict stale messages, enforce the
depth bound, idle while paused, replay an interrupted message if one is
recorded, otherwise process the oldest queued message (or idle when the
queue is empty). -/
def daemon_iteration (cfg : QueueCfg) (env : IterEnv) (st : IterState) :
    IterResult :=
  let dir1 := cleanup_old_messages st.dir env.now cfg.max_age_seconds
  let dir2 := enforceDir dir1 cfg.max_depth
  let state := read_playback_state st.stateFile
  if state.paused then
    { st := ⟨st.stateFile, dir2, st.lastSpeaker⟩,
      events := [.heartbeat, .slept], outcome := .nextIteration }
  else
    match state.current_message with
    | some interrupted =>
      let fileCleared := StateFile.ok
        (write_playback_state st.stateFile none none (.set none) env.now)
      let r := replayStep env dir2 st.lastSpeaker fileCleared interrupted
      { r with events := .heartbeat :: r.events }
    | none =>
      match get_queue_messages dir2 with
      | [] =>
        { st := ⟨st.stateFile, dir2, st.lastSpeaker⟩,
          events := [.heartbeat, .slept], outcome := .nextIteration }
      | e :: _ =>
        let r := speechStep cfg env st.stateFile dir2 st.lastSpeaker e
        { r with events := .heartbeat :: r.events }

-- --- Heartbeat ---

/-- The heartbeat file as `daemon_is_healthy` may find it. -/
inductive HeartbeatFile
  | missing
  | corrupt
  | beat (t : Int)
deriving DecidableEq

/-- Embedding of `daemon_is_healthy`: true exactly when the heartbeat file
exists, parses as a float, and is less than 10 seconds old. -/
def daemon_is_healthy (hb : HeartbeatFile) (now : Int) : Bool :=
  match hb with
  | .beat t => decide (now - t < 10)
  | _ => false

-- --- Producer API (`speaker.py`) ---

/-- The parts of the producer-side `Config` that `speak` reads. -/
structure SpeakerConfig where
  mode : String
  max_chars : Nat
deriving DecidableEq

/-- How a `speak` call ends: returning `False` (muted or empty text), or
routing the final text to the queue or to direct playback. -/
inductive SpeakOutcome
  | notSpoken
  | queued (text : String)
  | direct (text : String)
deriving DecidableEq

/-- The text `speak` ends up with: the filter applied unless skipped, then
truncation to `max_chars` with an ellipsis. -/
def speakText (cfg : SpeakerConfig) (filtered : String → String)
    (skip_filter : Bool) (raw : String) : String :=
  let t := if skip_filter then raw else filtered raw
  if cfg.max_chars < t.length then t.take cfg.max_chars ++ "..." else t

/-- Embedding of `speak`: return `False` when the session is muted and the
call is not forced, or when the (possibly filtered) text is blank; then
route on `config.mode == "queue"` alone.  The daemon heartbeat plays no
part. -/
def speak (cfg : SpeakerConfig) (muted force : Bool)
    (filtered : String → String) (skip_filter : Bool) (raw : String) :
    SpeakOutcome :=
  if muted && !force then .notSpoken
  else
    let t0 := if skip_filter then raw else filtered raw
    if stripEmpty t0 then .notSpoken
    else
      let t := speakText cfg filtered skip_filter raw
      if cfg.mode = "queue" then .queued t else .direct t

/-- The routing rule as the specification words it (claim C4): play inline
when the mode is `direct` or the heartbeat is stale, enqueue otherwise. -/
def specRouting (cfg : SpeakerConfig) (hb : HeartbeatFile) (now : Int)
    (text : String) : SpeakOutcome :=
  if cfg.mode = "direct" ∨ daemon_is_healthy hb now = false then .direct text
  else .queued text

-- --- Enqueue (`_speak_queued`) ---

/-- The message dict `_speak_queued` builds, with exactly its keys. -/
structure ProducerMsg where
  text : String
  persona : String
  speed : Int
  session : String
  timestamp : Int
deriving DecidableEq

/-- Filesystem operations an enqueue may perform on the queue directory. -/
inductive FsOp
  | writeFile (name : String) (m : ProducerMsg)
  | fsyncFile (name : String)
  | renameFile (src : String) (dst : String)
deriving DecidableEq

/-- Embedding of the filesystem behaviour of `_speak_queued`: one direct
write of the JSON message to `<timestamp>.json` (`tsStr` is the formatted
`f"{time.time():.6f}"`).  No temp file, no fsync, no rename. -/
def speak_queued_ops (tsStr : String) (m : ProducerMsg) : List FsOp :=
  [FsOp.writeFile (tsStr ++ ".json") m]

/-- The enqueue protocol as the specification words it (claim C2): some
message is first written to a `.tmp` name and that name is then renamed to
the corresponding `.json` name. -/
def specAtomicEnqueue (ops : List FsOp) : Prop :=
  ∃ base m, FsOp.writeFile (base ++ ".tmp") m ∈ ops ∧
    FsOp.renameFile (base ++ ".tmp") (base ++ ".json") ∈ ops

-- --- Specification-worded predicates and concrete scenarios ---

/-- The control-message dispatch as the specification words it (claim C1):
on dequeueing a message of type `control`, after the pre-action the daemon
exits the loop with restart intent for `post_action = restart`, exits for
`stop`, and deletes the file and continues for `none`. -/
def specControlOutcome (m : QMsg) : Option Outcome :=
  if m.mtype = some "control" then
    some (match m.post_action with
      | some "restart" => .exitRestart
      | some "stop" => .exitStop
      | _ => .nextIteration)
  else none

/-- Tie-breaking as the specification words it (claim C6): any two
dequeued messages with equal timestamps appear in lexicographic order of
their filenames. -/
def lexTieBreak (dir : List QFile) : Prop :=
  ∀ (i j : Nat) (ei ej : Entry), i < j →
    (get_queue_messages dir)[i]? = some ei →
    (get_queue_messages dir)[j]? = some ej →
    ei.msg.tsKey = ej.msg.tsKey → ei.file < ej.file

/-- True when the state file exists and decodes. -/
def StateFile.parses : StateFile → Bool
  | .ok _ => true
  | _ => false

/-- The last value stored into `current_message` over a run of events,
`none` when no store happened. -/
def lastSetCM (es : List Event) : Option (Option CurrentMsg) :=
  es.foldl
    (fun acc ev => match ev with
      | .setCurrentMessage m => some m
      | _ => acc)
    none

/-- An ordinary speech message with timestamp 10. -/
def msgHello : QMsg :=
  { timestamp := some 10, session_id := some "s1", project := some "p1",
    text := some "hello", persona := some "claude-prime", mtype := none,
    pre_action := none, post_action := none }

/-- A synthesis environment in which piper and the default voice are
available and synthesis succeeds. -/
def specGoodEnv : SpeechEnv :=
  { piper := true, voices := [DEFAULT_VOICE], synthOk := true }

/-- A playback call that finds `afplay`, is never paused, and exits 0. -/
def playClean : PlayCfg :=
  { player := .afplay, pid := 42, reads := [], rc := 0, spawnFails := false }

/-- A benign iteration environment at wall-clock instant 100. -/
def env0 : IterEnv :=
  { now := 100, speech := specGoodEnv, personas := [], mainPlay := playClean,
    annPlay := playClean }

/-- The default queue policy with transitions disabled. -/
def cfg0 : QueueCfg :=
  { max_depth := 20, max_age_seconds := 300, speaker_transition := "none" }

/-- An initial state holding one ordinary speech message. -/
def st0 : IterState :=
  { stateFile := .ok defaultPlaybackState,
    dir := [{ name := "10.0_aa.json", content := some msgHello }],
    lastSpeaker := none }

/-- The control message the installer enqueues (`install.py`), with type
`control`, pre-action `drain` and post-action `restart`. -/
def ctrlMsg : QMsg :=
  { timestamp := some 50, session_id := some "installer", project := none,
    text := some "Installing updates. Back in a moment.",
    persona := some "claude-prime", mtype := some "control",
    pre_action := some "drain", post_action := some "restart" }

/-- An initial state holding only the installer's control message. -/
def stCtrl : IterState :=
  { stateFile := .ok defaultPlaybackState,
    dir := [{ name := "50.0_abcd.json", content := some ctrlMsg }],
    lastSpeaker := none }

/-- The same message with the control fields absent. -/
def ctrlMsgStripped : QMsg :=
  { ctrlMsg with mtype := none, pre_action := none, post_action := none }

/-- An initial state holding only the stripped twin of the control
message. -/
def stCtrlStripped : IterState :=
  { stateFile := .ok defaultPlaybackState,
    dir := [{ name := "50.0_abcd.json", content := some ctrlMsgStripped }],
    lastSpeaker := none }

/-- A message with timestamp 5 used for tie-break scenarios. -/
def msgTie : QMsg :=
  { timestamp := some 5, session_id := some "s1", project := some "p1",
    text := some "first", persona := none, mtype := none,
    pre_action := none, post_action := none }

/-- A directory whose enumeration yields `b.json` before `a.json`, both
holding messages with equal timestamps. -/
def dirTie : List QFile :=
  [{ name := "b.json", content := some msgTie },
   { name := "a.json", content := some msgTie }]

/-- True of every event except the start of audio playback. -/
def notPlaybackStart : Event → Bool
  | .startedPlayback _ => false
  | _ => true

/-- A concrete producer message for the enqueue scenarios. -/
def pmHello : ProducerMsg :=
  { text := "hello", persona := "default", speed := 2, session := "s1",
    timestamp := 100 }

/-- An initial state whose playback state is paused, with an empty queue. -/
def stPaused : IterState :=
  { stateFile := .ok { defaultPlaybackState with paused := true },
    dir := [], lastSpeaker := none }

/-- A persona map registering a persona with a non-default voice. -/
def voicedPersonas : List (String × PersonaCfg) :=
  [("kat", { voice := some "kat-voice", speed := none, speed_method := none })]

/-- An iteration environment in which no voice model file exists. -/
def envNoVoice : IterEnv :=
  { env0 with speech := { piper := true, voices := [], synthOk := true } }

/-- A minimal speech message with a given timestamp. -/
def msgAt (t : Int) : QMsg :=
  { timestamp := some t, session_id := some "s1", project := some "p1",
    text := some "m", persona := none, mtype := none, pre_action := none,
    post_action := none }

/-- A directory of three messages with ascending timestamps. -/
def dir3 : List QFile :=
  [{ name := "1_a.json", content := some (msgAt 1) },
   { name := "2_b.json", content := some (msgAt 2) },
   { name := "3_c.json", content := some (msgAt 3) }]

-- --- Supporting lemmas ---

lemma mem_insEntry {z x : Entry} {l : List Entry} (h : z ∈ insEntry x l) :
    z = x ∨ z ∈ l := by
  induction l with
  | nil => simpa [insEntry] using h
  | cons y ys ih =>
    by_cases hc : y.msg.tsKey ≤ x.msg.tsKey
    · simp only [insEntry, if_pos hc, List.mem_cons] at h
      rcases h with h | h
      · exact Or.inr (by simp [h])
      · rcases ih h with h | h
        · exact Or.inl h
        · exact Or.inr (List.mem_cons_of_mem _ h)
    · simp only [insEntry, if_neg hc, List.mem_cons] at h
      rcases h with h | h | h
      · exact Or.inl h
      · exact Or.inr (by simp [h])
      · exact Or.inr (List.mem_cons_of_mem _ h)

lemma pairwise_insEntry {x : Entry} {l : List Entry}
    (h : l.Pairwise tsLe) : (insEntry x l).Pairwise tsLe := by
  induction l with
  | nil => simp [insEntry, List.Pairwise.nil]
  | cons y ys ih =>
    rcases List.pairwise_cons.mp h with ⟨hy, hys⟩
    by_cases hc : y.msg.tsKey ≤ x.msg.tsKey
    · simp only [insEntry, if_pos hc]
      refine List.pairwise_cons.mpr ⟨?_, ih hys⟩
      intro z hz
      rcases mem_insEntry hz with rfl | hz
      · exact hc
      · exact hy z hz
    · simp only [insEntry, if_neg hc]
      have hxy : x.msg.tsKey ≤ y.msg.tsKey := le_of_not_le hc
      refine List.pairwise_cons.mpr ⟨?_, h⟩
      intro z hz
      rcases List.mem_cons.mp hz with rfl | hz
      · exact hxy
      · exact le_trans hxy (hy z hz)

lemma perm_insEntry (x : Entry) (l : List Entry) :
    List.Perm (insEntry x l) (x :: l) := by
  induction l with
  | nil => simp [insEntry]
  | cons y ys ih =>
    by_cases hc : y.msg.tsKey ≤ x.msg.tsKey
    · simp only [insEntry, if_pos hc]
      exact List.Perm.trans (List.Perm.cons y ih) (List.Perm.swap x y ys)
    · simp [insEntry, if_neg hc]

lemma pairwise_foldl_insEntry (l : List Entry) :
    ∀ acc : List Entry, acc.Pairwise tsLe →
      (l.foldl (fun acc x => insEntry x acc) acc).Pairwise tsLe := by
  induction l with
  | nil => intro acc h; simpa using h
  | cons x xs ih =>
    intro acc h
    exact ih (insEntry x acc) (pairwise_insEntry h)

lemma perm_foldl_insEntry (l : List Entry) :
    ∀ acc : List Entry,
      List.Perm (l.foldl (fun acc x => insEntry x acc) acc) (acc ++ l) := by
  induction l with
  | nil => intro acc; simp
  | cons x xs ih =>
    intro acc
    have step : (x :: xs).foldl (fun acc x => insEntry x acc) acc
        = xs.foldl (fun acc x => insEntry x acc) (insEntry x acc) := rfl
    rw [step]
    refine List.Perm.trans (ih (insEntry x acc)) ?_
    refine List.Perm.trans ((perm_insEntry x acc).append_right xs) ?_
    simpa using (@List.perm_middle _ x acc xs).symm

lemma sortByTs_pairwise (l : List Entry) : (sortByTs l).Pairwise tsLe :=
  pairwise_foldl_insEntry l [] List.Pairwise.nil

lemma sortByTs_perm (l : List Entry) : List.Perm (sortByTs l) l := by
  simpa using perm_foldl_insEntry l []

lemma filter_insEntry_of_eq {x : Entry} {l : List Entry} {t : Int}
    (hs : l.Pairwise tsLe) (hx : x.msg.tsKey = t) :
    (insEntry x l).filter (hasTs t) = l.filter (hasTs t) ++ [x] := by
  induction l with
  | nil => simp [insEntry, List.filter, hasTs, hx]
  | cons y ys ih =>
    rcases List.pairwise_cons.mp hs with ⟨hy, hys⟩
    by_cases hc : y.msg.tsKey ≤ x.msg.tsKey
    · simp only [insEntry, if_pos hc, List.filter_cons]
      rw [ih hys]
      by_cases hyt : hasTs t y = true
      · simp [hyt]
      · simp [hyt]
    · have hgt : t < y.msg.tsKey := by
        have := lt_of_not_le hc
        simpa [hx] using this
      have hyne : ¬ y.msg.tsKey = t := ne_of_gt hgt
      have hyt : hasTs t y = false := by
        simp [hasTs, hyne]
      have htail : ∀ z ∈ ys, hasTs t z = false := by
        intro z hz
        have hyz : y.msg.tsKey ≤ z.msg.tsKey := hy z hz
        simp only [hasTs, decide_eq_false_iff_not]
        intro h
        exact absurd (h ▸ hyz) (not_le_of_lt hgt)
      have hfys : ys.filter (hasTs t) = [] :=
        List.filter_eq_nil_iff.mpr (fun z hz => by simp [htail z hz])
      have hc2 : ¬ y.msg.tsKey ≤ t := not_le_of_lt hgt
      simp [insEntry, List.filter_cons, hasTs, hx, hyne, hfys, hc2]

lemma filter_insEntry_of_ne {x : Entry} {l : List Entry} {t : Int}
    (hx : ¬ x.msg.tsKey = t) :
    (insEntry x l).filter (hasTs t) = l.filter (hasTs t) := by
  have hxt : hasTs t x = false := by simp [hasTs, hx]
  induction l with
  | nil => simp [insEntry, List.filter, hxt]
  | cons y ys ih =>
    by_cases hc : y.msg.tsKey ≤ x.msg.tsKey
    · simp only [insEntry, if_pos hc, List.filter_cons]
      rw [ih]
    · simp [insEntry, if_neg hc, List.filter_cons, hxt]

lemma filter_foldl_insEntry (l : List Entry) (t : Int) :
    ∀ acc : List Entry, acc.Pairwise tsLe →
      (l.foldl (fun acc x => insEntry x acc) acc).filter (hasTs t)
        = acc.filter (hasTs t) ++ l.filter (hasTs t) := by
  induction l with
  | nil => intro acc _; simp
  | cons x xs ih =>
    intro acc hacc
    have step : (x :: xs).foldl (fun acc x => insEntry x acc) acc
        = xs.foldl (fun acc x => insEntry x acc) (insEntry x acc) := rfl
    rw [step, ih (insEntry x acc) (pairwise_insEntry hacc)]
    by_cases hx : x.msg.tsKey = t
    · rw [filter_insEntry_of_eq hacc hx]
      have hxt : hasTs t x = true := by simp [hasTs, hx]
      simp [List.filter_cons, hxt]
    · rw [filter_insEntry_of_ne hx]
      have hxt : hasTs t x = false := by simp [hasTs, hx]
      simp [List.filter_cons, hxt]

/-- Stability of the queue sort: among entries with one and the same
timestamp key, the sorted output preserves directory-enumeration order. -/
lemma sortByTs_filter (l : List Entry) (t : Int) :
    (sortByTs l).filter (hasTs t) = l.filter (hasTs t) := by
  simpa using filter_foldl_insEntry l t [] List.Pairwise.nil

lemma enforceLoop_eq (maxDepth : Nat) (l : List Entry) :
    enforceLoop maxDepth l
      = (l.drop (l.length - maxDepth), l.take (l.length - maxDepth)) := by
  induction l with
  | nil => simp [enforceLoop]
  | cons x rest ih =>
    simp only [enforceLoop, List.length_cons]
    by_cases h : maxDepth < rest.length + 1
    · rw [if_pos h, ih]
      have hk : rest.length + 1 - maxDepth = (rest.length - maxDepth) + 1 := by
        omega
      rw [hk, List.drop_succ_cons, List.take_succ_cons]
    · rw [if_neg h]
      have hk : rest.length + 1 - maxDepth = 0 := by omega
      rw [hk, List.drop_zero, List.take_zero]

lemma write_unset_cm (f : StateFile) (pid : Option Int) (p : Option Bool)
    (t : Int) :
    (write_playback_state f pid p .unset t).current_message
      = (read_playback_state f).current_message := by
  unfold write_playback_state
  cases pid <;> cases p <;> rfl

lemma write_set_cm (f : StateFile) (pid : Option Int) (p : Option Bool)
    (m : Option CurrentMsg) (t : Int) :
    (write_playback_state f pid p (.set m) t).current_message = m := by
  unfold write_playback_state
  cases pid <;> cases p <;> rfl

lemma playPoll_cm (now : Int) (rc : Int) (reads : List Bool) :
    ∀ f : StateFile,
      (read_playback_state (playPoll now rc f reads).fileAfter).current_message
        = (read_playback_state f).current_message := by
  induction reads with
  | nil =>
    intro f
    simp only [playPoll, read_playback_state]
    exact write_unset_cm f none none now
  | cons flag rest ih =>
    intro f
    by_cases hf : flag = true
    · subst hf
      simp only [playPoll, if_pos rfl, read_playback_state]
      exact write_unset_cm _ none none now
    · have hf2 : flag = false := by
        cases flag
        · rfl
        · exact absurd rfl hf
      subst hf2
      simp only [playPoll, Bool.false_eq_true, if_false]
      rw [ih]
      rfl

lemma play_audio_cm (player : PlayerKind) (f : StateFile) (pid : Int)
    (now : Int) (reads : List Bool) (rc : Int) (sf : Bool) :
    (read_playback_state
        (play_audio player f pid now reads rc sf).fileAfter).current_message
      = (read_playback_state f).current_message := by
  cases player with
  | noPlayer => rfl
  | afplay | paplay | aplay =>
    simp only [play_audio]
    by_cases hs : sf = true
    · rw [if_pos hs]
      simp only [read_playback_state]
      exact write_unset_cm f none none now
    · rw [if_neg hs]
      rw [playPoll_cm]
      simp only [read_playback_state]
      exact write_unset_cm f (some pid) none now

lemma runPlay_cm (p : PlayCfg) (f : StateFile) (now : Int) :
    (read_playback_state (runPlay p f now).fileAfter).current_message
      = (read_playback_state f).current_message :=
  play_audio_cm p.player f p.pid now p.reads p.rc p.spawnFails

lemma replayStep_outcome (env : IterEnv) (dir : List QFile)
    (last : Option String) (f : StateFile) (m : CurrentMsg) :
    (replayStep env dir last f m).outcome = .nextIteration := by
  simp only [replayStep]
  split
  · split <;> rfl
  · rfl

lemma speechStep_outcome (cfg : QueueCfg) (env : IterEnv) (f : StateFile)
    (dir : List QFile) (last : Option String) (e : Entry) :
    (speechStep cfg env f dir last e).outcome = .nextIteration := by
  simp only [speechStep]
  split
  · rfl
  · split
    · rfl
    · split <;> rfl

lemma transitionStep_fst (cfg : QueueCfg) (env : IterEnv) (file : StateFile)
    (last : Option String) (key project persona : String) :
    (transitionStep cfg env file last key project persona).1 = [] ∨
    (transitionStep cfg env file last key project persona).1
      = [.playedChime] ∨
    (transitionStep cfg env file last key project persona).1
      = [.playedAnnouncement (project ++ " says:")] := by
  cases last with
  | none => exact Or.inl rfl
  | some ls =>
    simp only [transitionStep]
    by_cases h1 : ls ≠ key
    · rw [if_pos h1]
      by_cases h2 : cfg.speaker_transition = "chime"
      · rw [if_pos h2]; exact Or.inr (Or.inl rfl)
      · rw [if_neg h2]
        by_cases h3 : cfg.speaker_transition = "announce"
        · rw [if_pos h3]
          by_cases h4 :
              (generate_speech env.speech env.personas persona).ok = true
          · rw [if_pos h4]; exact Or.inr (Or.inr rfl)
          · rw [if_neg h4]; exact Or.inl rfl
        · rw [if_neg h3]; exact Or.inl rfl
    · rw [if_neg h1]; exact Or.inl rfl

-- --- Claim theorems ---

/-- C10: whenever the playback-state file is missing, unreadable or does
not parse as JSON, `read_playback_state` returns the default state with
`paused = false`, `audio_pid = null` and `current_message = null`, so every
consumer of the pause flag sees not-paused. -/
theorem C10_default_state_on_unparseable (f : StateFile)
    (h : f.parses = false) :
    read_playback_state f = defaultPlaybackState ∧
    (read_playback_state f).paused = false ∧
    (read_playback_state f).audio_pid = none ∧
    (read_playback_state f).current_message = none := by
  cases f with
  | ok s => simp [StateFile.parses] at h
  | missing => exact ⟨rfl, rfl, rfl, rfl⟩
  | unreadable => exact ⟨rfl, rfl, rfl, rfl⟩
  | corrupt => exact ⟨rfl, rfl, rfl, rfl⟩

/-- Witness for C10 at a missing state file. -/
theorem C10_witness :
    StateFile.missing.parses = false ∧
    read_playback_state .missing = defaultPlaybackState :=
  ⟨by decide, (C10_default_state_on_unparseable .missing (by decide)).1⟩

/-- C3: contrary to the claim, `audio_pid` is not cleared on any exit path
of `play_audio`: the clearing calls pass `audio_pid=None`, which
`write_playback_state` treats as "leave the field unchanged", so the child
PID persists after the pause-kill path, after normal child exit (zero and
nonzero), and after the internal-error path. -/
theorem C3_audio_pid_not_cleared :
    ((play_audio .afplay (.ok defaultPlaybackState) 42 0 [false, true] 0
        false).was_killed = true ∧
      (read_playback_state (play_audio .afplay (.ok defaultPlaybackState)
          42 0 [false, true] 0 false).fileAfter).audio_pid = some 42) ∧
    ((play_audio .afplay (.ok defaultPlaybackState) 42 0 [] 0
        false).success = true ∧
      (read_playback_state (play_audio .afplay (.ok defaultPlaybackState)
          42 0 [] 0 false).fileAfter).audio_pid = some 42) ∧
    ((play_audio .afplay (.ok defaultPlaybackState) 42 0 [] 1
        false).success = false ∧
      (read_playback_state (play_audio .afplay (.ok defaultPlaybackState)
          42 0 [] 1 false).fileAfter).audio_pid = some 42) ∧
    (read_playback_state (play_audio .afplay
        (.ok { defaultPlaybackState with audio_pid := some 7 }) 42 0 [] 0
        true).fileAfter).audio_pid = some 7 := by
  decide

/-- C2 (counterexample): the enqueue of `_speak_queued` performs no
write-temp-then-rename; the claimed protocol is absent. -/
theorem C2_enqueue_not_atomic :
    ¬ specAtomicEnqueue (speak_queued_ops "100.000000" pmHello) := by
  rintro ⟨base, m, hw, hr⟩
  simp [speak_queued_ops] at hr

/-- C2 (amended): `_speak_queued` writes the message in a single direct
write to `<timestamp>.json`; it never creates a temp file, never fsyncs and
never renames, so rename-atomicity is not provided. -/
theorem C2_enqueue_direct_write (tsStr : String) (m : ProducerMsg) :
    speak_queued_ops tsStr m = [FsOp.writeFile (tsStr ++ ".json") m] ∧
    (∀ s d, FsOp.renameFile s d ∉ speak_queued_ops tsStr m) ∧
    (∀ n, FsOp.fsyncFile n ∉ speak_queued_ops tsStr m) := by
  refine ⟨rfl, ?_, ?_⟩
  · intro s d
    simp [speak_queued_ops]
  · intro n
    simp [speak_queued_ops]

/-- C6 (counterexample): two messages with equal timestamps are returned in
directory-enumeration order, which need not be the lexicographic order of
their filenames: with enumeration `b.json`, `a.json`, the dequeued order
keeps `b.json` first. -/
theorem C6_ties_not_lexicographic : ¬ lexTieBreak dirTie := by
  intro h
  have hlt := h 0 1 ⟨msgTie, "b.json"⟩ ⟨msgTie, "a.json"⟩ (by decide)
    (by decide) (by decide) rfl
  rw [String.lt_iff_toList_lt] at hlt
  revert hlt
  decide

/-- C6 (amended): `get_queue_messages` returns the parseable messages
sorted ascending by their in-file timestamp (absent timestamps read as 0),
as a permutation of the parsed directory entries, and messages with equal
timestamps appear in directory-enumeration order (the sort is stable); the
lexicographic filename order is not consulted. -/
theorem C6_sorted_stable (dir : List QFile) (t : Int) :
    (get_queue_messages dir).Pairwise tsLe ∧
    List.Perm (get_queue_messages dir) (parseEntries dir) ∧
    (get_queue_messages dir).filter (hasTs t)
      = (parseEntries dir).filter (hasTs t) :=
  ⟨sortByTs_pairwise (parseEntries dir), sortByTs_perm (parseEntries dir),
    sortByTs_filter (parseEntries dir) t⟩

/-- C7: after `enforce_max_depth`, at most `max_depth` messages remain
queued, and every surviving message has a timestamp greater than or equal
to that of every evicted message (drop-head eviction). -/
theorem C7_depth_bound_drop_head (dir : List QFile) (maxDepth : Nat) :
    (enforceSurvivors dir maxDepth).length ≤ maxDepth ∧
    ∀ r ∈ enforceSurvivors dir maxDepth,
      ∀ ev ∈ enforceEvicted dir maxDepth,
        ev.msg.tsKey ≤ r.msg.tsKey := by
  constructor
  · simp only [enforceSurvivors, enforceLoop_eq, List.length_drop]
    omega
  · intro r hr ev hev
    simp only [enforceSurvivors, enforceLoop_eq] at hr
    simp only [enforceEvicted, enforceLoop_eq] at hev
    have hp : (get_queue_messages dir).Pairwise tsLe :=
      sortByTs_pairwise (parseEntries dir)
    have hsplit := List.take_append_drop
      ((get_queue_messages dir).length - maxDepth) (get_queue_messages dir)
    rw [← hsplit] at hp
    exact (List.pairwise_append.mp hp).2.2 ev hev r hr

/-- Witness for C7 on a three-message queue bounded to depth one. -/
theorem C7_witness :
    (enforceSurvivors dir3 1).length ≤ 1 ∧
    (msgAt 1).tsKey ≤ (msgAt 3).tsKey := by
  refine ⟨(C7_depth_bound_drop_head dir3 1).1, ?_⟩
  exact (C7_depth_bound_drop_head dir3 1).2 ⟨msgAt 3, "3_c.json"⟩
    (by decide) ⟨msgAt 1, "1_a.json"⟩ (by decide)

/-- C8: when the pause check reads `paused = true`, the iteration sleeps
one poll interval and continues: no interrupted message is replayed, no
queue message is dequeued or deleted by the processing path, nothing is
synthesized or played, and the playback state is left untouched. -/
theorem C8_paused_iteration_idles (cfg : QueueCfg) (env : IterEnv)
    (st : IterState)
    (hp : (read_playback_state st.stateFile).paused = true) :
    daemon_iteration cfg env st
      = { st := { stateFile := st.stateFile,
                  dir := enforceDir
                    (cleanup_old_messages st.dir env.now cfg.max_age_seconds)
                    cfg.max_depth,
                  lastSpeaker := st.lastSpeaker },
          events := [.heartbeat, .slept],
          outcome := .nextIteration } ∧
    (∀ t, Event.startedPlayback t ∉ (daemon_iteration cfg env st).events) ∧
    (∀ t p,
      Event.synthesizedText t p ∉ (daemon_iteration cfg env st).events) ∧
    (∀ m, Event.replayBegin m ∉ (daemon_iteration cfg env st).events) ∧
    (∀ n, Event.deletedQueueFile n ∉ (daemon_iteration cfg env st).events) ∧
    Event.slept ∈ (daemon_iteration cfg env st).events ∧
    (daemon_iteration cfg env st).st.stateFile = st.stateFile ∧
    (daemon_iteration cfg env st).outcome = .nextIteration := by
  have h : daemon_iteration cfg env st
      = { st := { stateFile := st.stateFile,
                  dir := enforceDir
                    (cleanup_old_messages st.dir env.now cfg.max_age_seconds)
                    cfg.max_depth,
                  lastSpeaker := st.lastSpeaker },
          events := [.heartbeat, .slept],
          outcome := .nextIteration } := by
    simp [daemon_iteration, hp]
  refine ⟨h, ?_, ?_, ?_, ?_, ?_, ?_, ?_⟩ <;> simp [h]

/-- Witness for C8 at a paused state with an empty queue. -/
theorem C8_witness :
    (read_playback_state stPaused.stateFile).paused = true ∧
    (daemon_iteration cfg0 env0 stPaused).events
      = [Event.heartbeat, Event.slept] := by
  refine ⟨by decide, ?_⟩
  rw [(C8_paused_iteration_idles cfg0 env0 stPaused (by decide)).1]

/-- C9: `generate_speech` falls back to the default voice when the
requested persona's model file is missing, fails without synthesizing when
the default model is missing too, and on that failure the scheduler
deletes the message and continues the loop instead of stalling. -/
theorem C9_voice_fallback_and_drop :
    (∀ (env : SpeechEnv) (personas : List (String × PersonaCfg))
        (p : String),
      env.piper = true →
      (get_persona_config personas p).voice.getD DEFAULT_VOICE
          ∉ env.voices →
      DEFAULT_VOICE ∈ env.voices →
      generate_speech env personas p
        = .synthesized DEFAULT_VOICE env.synthOk) ∧
    (∀ (env : SpeechEnv) (personas : List (String × PersonaCfg))
        (p : String),
      env.piper = true →
      (get_persona_config personas p).voice.getD DEFAULT_VOICE
          ∉ env.voices →
      DEFAULT_VOICE ∉ env.voices →
      generate_speech env personas p = .noVoice) ∧
    (∀ (cfg : QueueCfg) (env : IterEnv) (file : StateFile)
        (dir : List QFile) (last : Option String) (e : Entry),
      stripEmpty e.msg.textVal = false →
      (generate_speech env.speech env.personas e.msg.personaVal).ok
          = false →
      speechStep cfg env file dir last e
        = { st := { stateFile := file, dir := deleteFile dir e.file,
                    lastSpeaker := last },
            events := [.deletedQueueFile e.file],
            outcome := .nextIteration }) := by
  refine ⟨?_, ?_, ?_⟩
  · intro env personas p hpiper hmiss hdef
    simp [generate_speech, hpiper, hmiss, hdef]
  · intro env personas p hpiper hmiss hdef
    simp [generate_speech, hpiper, hmiss, hdef]
  · intro cfg env file dir last e htrim hgen
    simp [speechStep, htrim, hgen]

/-- Witness for C9: persona `kat` with a missing voice file falls back to
the default voice; with no voice files at all synthesis fails and the
scheduler deletes the queue file and continues. -/
theorem C9_witness :
    generate_speech ⟨true, [DEFAULT_VOICE], true⟩ voicedPersonas "kat"
      = .synthesized DEFAULT_VOICE true ∧
    generate_speech ⟨true, [], true⟩ voicedPersonas "kat"
      = .noVoice ∧
    speechStep cfg0 envNoVoice (.ok defaultPlaybackState)
        [{ name := "10.0_aa.json", content := some msgHello }] none
        ⟨msgHello, "10.0_aa.json"⟩
      = { st := { stateFile := .ok defaultPlaybackState,
                  dir := deleteFile
                    [{ name := "10.0_aa.json", content := some msgHello }]
                    "10.0_aa.json",
                  lastSpeaker := none },
          events := [.deletedQueueFile "10.0_aa.json"],
          outcome := .nextIteration } := by
  refine ⟨?_, ?_, ?_⟩
  · exact C9_voice_fallback_and_drop.1 _ voicedPersonas "kat" (by decide)
      (by decide) (by decide)
  · exact C9_voice_fallback_and_drop.2.1 _ voicedPersonas "kat" (by decide)
      (by decide) (by decide)
  · exact C9_voice_fallback_and_drop.2.2 cfg0 envNoVoice _ _ none
      ⟨msgHello, "10.0_aa.json"⟩ (by decide) (by decide)

/-- C4 (counterexample): with mode `queue` and a heartbeat stale by 100
seconds, `speak` still enqueues; the specification's routing rule demands
inline playback in that situation. -/
theorem C4_heartbeat_not_consulted :
    speak { mode := "queue", max_chars := 10000 } false false id false
        "hello"
      = .queued "hello" ∧
    daemon_is_healthy (.beat 0) 100 = false ∧
    specRouting { mode := "queue", max_chars := 10000 } (.beat 0) 100
        "hello"
      = .direct "hello" := by
  refine ⟨by decide, by decide, by decide⟩

/-- C4 (amended): after the mute and empty-text checks, `speak` routes on
`config.mode` alone — `queue` enqueues, anything else plays inline; the
daemon heartbeat is never consulted (no producer calls
`daemon_is_healthy`). -/
theorem C4_route_on_mode_only (cfg : SpeakerConfig) (muted force : Bool)
    (filtered : String → String) (skip : Bool) (raw : String)
    (hm : (muted && !force) = false)
    (ht : stripEmpty (if skip then raw else filtered raw) = false) :
    speak cfg muted force filtered skip raw
      = if cfg.mode = "queue" then
          .queued (speakText cfg filtered skip raw)
        else .direct (speakText cfg filtered skip raw) := by
  simp [speak, speakText, hm, ht]

/-- Witness for C4 at an unmuted session with nonblank text. -/
theorem C4_witness :
    ((false && !false) = false) ∧
    stripEmpty (if false then "hi" else id "hi") = false ∧
    speak { mode := "queue", max_chars := 10 } false false id false "hi"
      = .queued "hi" := by
  refine ⟨by decide, by decide, ?_⟩
  rw [C4_route_on_mode_only { mode := "queue", max_chars := 10 } false
    false id false "hi" (by decide) (by decide)]
  decide

/-- C1 (counterexample): on the installer's control message (type
`control`, pre-action `drain`, post-action `restart`) the specification
demands exiting the loop with restart intent; the scheduler instead
processes it as ordinary speech — it speaks the accompanying text, deletes
the file, and continues the loop. -/
theorem C1_control_message_spoken_not_dispatched :
    specControlOutcome ctrlMsg = some .exitRestart ∧
    (daemon_iteration cfg0 env0 stCtrl).outcome = .nextIteration ∧
    ¬ (daemon_iteration cfg0 env0 stCtrl).outcome = .exitRestart ∧
    Event.startedPlayback "Installing updates. Back in a moment."
      ∈ (daemon_iteration cfg0 env0 stCtrl).events := by
  decide

/-- C1 (amended): the daemon has no control-message dispatch at all.  The
loop body ends every iteration by continuing (it never exits with restart
or stop intent in response to a queue message), and a message of type
`control` is handled exactly like the same message with its `type`,
`pre_action` and `post_action` fields removed: its text is synthesized and
spoken, then the file is deleted and the loop continues. -/
theorem C1_no_control_dispatch :
    (∀ (cfg : QueueCfg) (env : IterEnv) (st : IterState),
      (daemon_iteration cfg env st).outcome = .nextIteration) ∧
    daemon_iteration cfg0 env0 stCtrl
      = daemon_iteration cfg0 env0 stCtrlStripped ∧
    Event.synthesizedText "Installing updates. Back in a moment."
        "claude-prime"
      ∈ (daemon_iteration cfg0 env0 stCtrl).events ∧
    Event.deletedQueueFile "50.0_abcd.json"
      ∈ (daemon_iteration cfg0 env0 stCtrl).events := by
  refine ⟨?_, by decide, by decide, by decide⟩
  intro cfg env st
  simp only [daemon_iteration]
  split
  · rfl
  · split
    · exact replayStep_outcome _ _ _ _ _
    · split
      · rfl
      · exact speechStep_outcome _ _ _ _ _ _

/-- C5 (counterexample): in an ordinary successful iteration, the queue
file is not deleted when the message is copied into `current_message`: at
the instant playback starts, no deletion has happened yet while
`current_message` already holds the message — both locations hold the
in-flight content throughout playback, and the deletion happens last. -/
theorem C5_file_outlives_copy :
    Event.startedPlayback "hello" ∈ (daemon_iteration cfg0 env0 st0).events ∧
    Event.deletedQueueFile "10.0_aa.json"
      ∈ (daemon_iteration cfg0 env0 st0).events ∧
    Event.deletedQueueFile "10.0_aa.json"
      ∉ ((daemon_iteration cfg0 env0 st0).events.takeWhile
          notPlaybackStart) ∧
    lastSetCM ((daemon_iteration cfg0 env0 st0).events.takeWhile
        notPlaybackStart)
      = some (some { session_id := "s1", project := "p1", text := "hello",
                     persona := "claude-prime" }) := by
  decide

/-- C5 (amended): whenever the scheduler processes a speech message with
nonblank text and successful synthesis, the queue file is deleted only as
the final action, after playback has finished (normally or by pause-kill);
from the copy into `current_message` until that deletion both locations
hold the message.  At the end of the iteration at most one location holds
it: the file is gone, and `current_message` retains the message exactly
when playback was killed. -/
theorem C5_deletion_after_playback
    (cfg : QueueCfg) (env : IterEnv) (file : StateFile) (dir : List QFile)
    (last : Option String) (e : Entry)
    (htrim : stripEmpty e.msg.textVal = false)
    (hgen : (generate_speech env.speech env.personas e.msg.personaVal).ok
      = true) :
    ∃ (pre : List Event) (k : Bool),
      (speechStep cfg env file dir last e).events
        = pre ++ Event.startedPlayback e.msg.textVal ::
            Event.finishedPlayback k ::
            (if k then [Event.deletedQueueFile e.file]
             else [Event.setCurrentMessage none,
                   Event.deletedQueueFile e.file]) ∧
      Event.deletedQueueFile e.file ∉ pre ∧
      (∀ t, Event.startedPlayback t ∉ pre) ∧
      lastSetCM pre
        = some (some { session_id := e.msg.sessionVal,
                       project := e.msg.projectVal,
                       text := e.msg.textVal,
                       persona := e.msg.personaVal }) ∧
      (speechStep cfg env file dir last e).st.dir = deleteFile dir e.file ∧
      (k = false →
        (read_playback_state
            (speechStep cfg env file dir last e).st.stateFile).current_message
          = none) ∧
      (k = true →
        (read_playback_state
            (speechStep cfg env file dir last e).st.stateFile).current_message
          = some { session_id := e.msg.sessionVal,
                   project := e.msg.projectVal,
                   text := e.msg.textVal,
                   persona := e.msg.personaVal }) := by
  have hgen2 : ¬ ((! (generate_speech env.speech env.personas
      e.msg.personaVal).ok) = true) := by
    simp [hgen]
  have htrim2 : ¬ (stripEmpty e.msg.textVal = true) := by
    simp [htrim]
  simp only [speechStep]
  rw [if_neg htrim2, if_neg hgen2]
  have hcases := transitionStep_fst cfg env file last
    (e.msg.sessionVal ++ ":" ++ e.msg.projectVal) e.msg.projectVal
    e.msg.personaVal
  generalize hTR : transitionStep cfg env file last
    (e.msg.sessionVal ++ ":" ++ e.msg.projectVal) e.msg.projectVal
    e.msg.personaVal = tr at hcases ⊢
  split
  case isTrue hk =>
    refine ⟨Event.synthesizedText e.msg.textVal e.msg.personaVal :: tr.1 ++
      [Event.setCurrentMessage
        (some { session_id := e.msg.sessionVal,
                project := e.msg.projectVal, text := e.msg.textVal,
                persona := e.msg.personaVal })], true,
      ?_, ?_, ?_, ?_, rfl, ?_, ?_⟩
    · simp
    · rcases hcases with h | h | h <;> simp [h]
    · intro t
      rcases hcases with h | h | h <;> simp [h]
    · rcases hcases with h | h | h <;> simp [h, lastSetCM]
    · intro h
      cases h
    · intro h
      rw [runPlay_cm]
      simp only [read_playback_state]
      exact write_set_cm _ none none _ env.now
  case isFalse hk =>
    refine ⟨Event.synthesizedText e.msg.textVal e.msg.personaVal :: tr.1 ++
      [Event.setCurrentMessage
        (some { session_id := e.msg.sessionVal,
                project := e.msg.projectVal, text := e.msg.textVal,
                persona := e.msg.personaVal })], false,
      ?_, ?_, ?_, ?_, rfl, ?_, ?_⟩
    · simp
    · rcases hcases with h | h | h <;> simp [h]
    · intro t
      rcases hcases with h | h | h <;> simp [h]
    · rcases hcases with h | h | h <;> simp [h, lastSetCM]
    · intro h
      simp only [clear_current_message, read_playback_state]
      exact write_set_cm _ none none none env.now
    · intro h
      cases h

/-- Witness for C5 on the concrete one-message queue scenario. -/
theorem C5_witness :
    stripEmpty msgHello.textVal = false ∧
    (generate_speech env0.speech env0.personas msgHello.personaVal).ok
      = true ∧
    (speechStep cfg0 env0 (.ok defaultPlaybackState)
        [{ name := "10.0_aa.json", content := some msgHello }] none
        ⟨msgHello, "10.0_aa.json"⟩).st.dir
      = deleteFile [{ name := "10.0_aa.json", content := some msgHello }]
          "10.0_aa.json" := by
  refine ⟨by decide, by decide, ?_⟩
  obtain ⟨pre, k, h⟩ := C5_deletion_after_playback cfg0 env0
    (.ok defaultPlaybackState)
    [{ name := "10.0_aa.json", content := some msgHello }] none
    ⟨msgHello, "10.0_aa.json"⟩ (by decide) (by decide)
  exact h.2.2.2.2.1

end TtsSpec
